import Mathlib

/-!
# Shallow embedding of the `dyn-symbol` crate (src/lib.rs)

The crate defines a single sum type `Symbol` with two variants:

* `Static(&'static dyn namespace::Static, u32)` — a borrowed reference to a
  static namespace object plus a numeric id;
* `Dynamic(Box<dyn namespace::Dynamic>)` — an owned, type-erased dynamic
  namespace instance.

Trait objects are embedded as follows.  A `&dyn namespace::Static` is a record
`StaticNS` holding the observable results of its methods together with its
runtime type identity (`TypeId`, modelled as a `Nat`).  The erased universe of
dynamic instances is an abstract type `δ`; the `dyn namespace::Dynamic`
dispatch table is a record `DynVTable δ` of functions on `δ`, including the
`type_id` projection.  A `Hasher` is modelled as a `List Nat` of the words
written so far; hashing a `TypeId` appends that identity, `write_u32` appends
the id, and `dyn_hash` is a capability-supplied state transformer.

All operations (`eq`, `cmp`, `partial_cmp`, `hash`, `clone`, `fmt`,
`downcast_static`, `downcast_dyn`) are translated line by line from the
`impl` blocks of `src/lib.rs`.
-/

namespace DynSymbol

/-- Runtime type identity (`std::any::TypeId`).  `TypeId` is `Eq + Ord + Hash`
with an arbitrary but fixed total order; it is modelled as a `Nat`. -/
abbrev TypeId := Nat

/-- A `&'static dyn namespace::Static` trait object: the observable behaviour
of the `namespace::Static` trait (`namespace_name`, `symbol_name`) together
with the concrete type's runtime identity (`type_id`). -/
structure StaticNS where
  type_id : TypeId
  namespace_name : String
  symbol_name : Nat → String

/-- The dispatch table of the `namespace::Dynamic` trait over an erased
universe `δ` of dynamic instances: `type_id` is the runtime type identity of
an instance, the rest are the trait methods of `src/lib.rs` lines 336-366.
`dyn_hash` writes into a hasher, modelled as a state transformer on the list
of words written. -/
structure DynVTable (δ : Type) where
  type_id : δ → TypeId
  namespace_name : δ → String
  symbol_name : δ → String
  dyn_clone : δ → δ
  dyn_eq : δ → δ → Bool
  dyn_cmp : δ → δ → Ordering
  dyn_hash : δ → List Nat → List Nat

/-- Rust `pub enum Symbol` (src/lib.rs lines 169-180): `Static(&'static dyn
namespace::Static, u32)` or `Dynamic(Box<dyn namespace::Dynamic>)`. -/
inductive Symbol (δ : Type) where
  | Static : StaticNS → Nat → Symbol δ
  | Dynamic : δ → Symbol δ

variable {δ : Type}

/-- Method `Symbol::downcast_static::<T>` (src/lib.rs lines 198-203).  The target
type `T` is represented by its `TypeId` `t`; `ns.as_any().downcast_ref::<T>()`
succeeds exactly when the namespace's runtime type identity is `t`. -/
def Symbol.downcast_static (t : TypeId) : Symbol δ → Option (StaticNS × Nat)
  | .Static ns id => if ns.type_id = t then some (ns, id) else none
  | .Dynamic _ => none

/-- Method `Symbol::downcast_dyn::<T>` (src/lib.rs lines 210-215). -/
def Symbol.downcast_dyn (V : DynVTable δ) (t : TypeId) : Symbol δ → Option δ
  | .Static _ _ => none
  | .Dynamic inst => if V.type_id inst = t then some inst else none

/-- Rust `impl Clone for Symbol` (src/lib.rs lines 218-225): the Static arm copies
the reference and id, the Dynamic arm delegates to `dyn_clone`. -/
def Symbol.clone (V : DynVTable δ) : Symbol δ → Symbol δ
  | .Static static_symbol id => .Static static_symbol id
  | .Dynamic inst => .Dynamic (V.dyn_clone inst)

/-- Rust `impl Debug for Symbol` (src/lib.rs lines 227-243): both arms write
`"{}::{}"` with the namespace name and the symbol name. -/
def Symbol.fmt (V : DynVTable δ) : Symbol δ → String
  | .Static ns id => ns.namespace_name ++ "::" ++ ns.symbol_name id
  | .Dynamic inst => V.namespace_name inst ++ "::" ++ V.symbol_name inst

/-- Rust `impl PartialEq for Symbol` (src/lib.rs lines 245-257). -/
def Symbol.eq (V : DynVTable δ) : Symbol δ → Symbol δ → Bool
  | .Static this_ns this_id, .Static rhs_ns rhs_id =>
      this_id == rhs_id && this_ns.type_id == rhs_ns.type_id
  | .Dynamic this_d, .Dynamic rhs_d =>
      V.type_id this_d == V.type_id rhs_d && V.dyn_eq this_d rhs_d
  | _, _ => false

/-- Rust `impl Ord for Symbol` (src/lib.rs lines 261-288).  `u32::cmp` and
`TypeId::cmp` are both `Nat` comparison here. -/
def Symbol.cmp (V : DynVTable δ) : Symbol δ → Symbol δ → Ordering
  | .Static this_ns this_id, .Static rhs_ns rhs_id =>
      let this_type_id := this_ns.type_id
      let rhs_type_id := rhs_ns.type_id
      if this_type_id = rhs_type_id then compare this_id rhs_id
      else compare this_type_id rhs_type_id
  | .Dynamic this_d, .Dynamic rhs_d =>
      let this_type_id := V.type_id this_d
      let rhs_type_id := V.type_id rhs_d
      if this_type_id = rhs_type_id then V.dyn_cmp this_d rhs_d
      else compare this_type_id rhs_type_id
  | .Static _ _, .Dynamic _ => Ordering.lt
  | .Dynamic _, .Static _ _ => Ordering.gt

/-- Rust `impl PartialOrd for Symbol` (src/lib.rs lines 290-294):
`Some(self.cmp(other))`. -/
def Symbol.partial_cmp (V : DynVTable δ) (a b : Symbol δ) : Option Ordering :=
  some (Symbol.cmp V a b)

/-- Rust `impl Hash for Symbol` (src/lib.rs lines 296-309).  The hasher is the
list of words written so far; `TypeId::hash` appends the identity,
`write_u32` appends the id, and the Dynamic arm appends the identity and then
delegates to `dyn_hash`. -/
def Symbol.hash (V : DynVTable δ) : Symbol δ → List Nat → List Nat
  | .Static ns id, state => (state ++ [ns.type_id]) ++ [id]
  | .Dynamic dynamic_sym, state =>
      V.dyn_hash dynamic_sym (state ++ [V.type_id dynamic_sym])

/-- Instrumented `Symbol::eq`: the same computation as `Symbol.eq`, but the
Rust `&&` short-circuit in the Dynamic arm (src/lib.rs line 252) is made
explicit, and the list of argument pairs on which `dyn_eq` is invoked is
returned alongside the result. -/
def Symbol.eqTraced (V : DynVTable δ) : Symbol δ → Symbol δ → Bool × List (δ × δ)
  | .Static this_ns this_id, .Static rhs_ns rhs_id =>
      (this_id == rhs_id && this_ns.type_id == rhs_ns.type_id, [])
  | .Dynamic this_d, .Dynamic rhs_d =>
      if V.type_id this_d == V.type_id rhs_d
      then (V.dyn_eq this_d rhs_d, [(this_d, rhs_d)])
      else (false, [])
  | _, _ => (false, [])

/-- Instrumented `Symbol::cmp`: the same computation as `Symbol.cmp`, with
the list of argument pairs on which `dyn_cmp` is invoked returned alongside
the result. -/
def Symbol.cmpTraced (V : DynVTable δ) : Symbol δ → Symbol δ → Ordering × List (δ × δ)
  | .Static this_ns this_id, .Static rhs_ns rhs_id =>
      (if this_ns.type_id = rhs_ns.type_id then compare this_id rhs_id
       else compare this_ns.type_id rhs_ns.type_id, [])
  | .Dynamic this_d, .Dynamic rhs_d =>
      if V.type_id this_d = V.type_id rhs_d
      then (V.dyn_cmp this_d rhs_d, [(this_d, rhs_d)])
      else (compare (V.type_id this_d) (V.type_id rhs_d), [])
  | .Static _ _, .Dynamic _ => (Ordering.lt, [])
  | .Dynamic _, .Static _ _ => (Ordering.gt, [])

/-- The equality algorithm exactly as the spec words it (spec §4.4 "equality"):
differing variants are unequal; two Statics are equal iff the namespace type
identities match and the ids match; two Dynamics are equal iff the instance
type identities match and `dyn_eq` returns true.  This definition is the
spec-side of the refinement for claim C1 and is deliberately written from the
spec, not from the source. -/
def Symbol.eqSpec (V : DynVTable δ) : Symbol δ → Symbol δ → Bool
  | .Static ns1 id1, .Static ns2 id2 =>
      decide (ns1.type_id = ns2.type_id ∧ id1 = id2)
  | .Dynamic d1, .Dynamic d2 =>
      decide (V.type_id d1 = V.type_id d2 ∧ V.dyn_eq d1 d2 = true)
  | _, _ => false

/-- The ordering algorithm exactly as the spec words it (spec §4.4 "ordering"):
Static orders before Dynamic; two Statics compare namespace type identity
first and ids only on identity ties; two Dynamics compare inst type
identity first and delegate to `dyn_cmp` only on identity ties.  Spec-side of
the refinement for claim C4, written from the spec. -/
def Symbol.cmpSpec (V : DynVTable δ) : Symbol δ → Symbol δ → Ordering
  | .Static _ _, .Dynamic _ => Ordering.lt
  | .Dynamic _, .Static _ _ => Ordering.gt
  | .Static ns1 id1, .Static ns2 id2 =>
      match compare ns1.type_id ns2.type_id with
      | .eq => compare id1 id2
      | o => o
  | .Dynamic d1, .Dynamic d2 =>
      match compare (V.type_id d1) (V.type_id d2) with
      | .eq => V.dyn_cmp d1 d2
      | o => o

/-- The static test namespace constant `STATIC_NS_CLASS_A : ClassN<1>` from the
crate's tests (src/lib.rs lines 394-397): named "A", name table `["0", "1"]`.
The runtime identity of `ClassN<1>` is chosen as `1`. -/
def STATIC_NS_CLASS_A : StaticNS where
  type_id := 1
  namespace_name := "A"
  symbol_name := fun id => ["0", "1"].getD id ""

/-- The static test namespace constant `STATIC_NS_CLASS_B : ClassN<2>` from the
crate's tests (src/lib.rs lines 398-401): named "B", name table `["0"]`.
The runtime identity of `ClassN<2>` is chosen as `2`. -/
def STATIC_NS_CLASS_B : StaticNS where
  type_id := 2
  namespace_name := "B"
  symbol_name := fun id => ["0"].getD id ""

/-- The dynamic test namespace family `TestDynamic<N>(String, &'static str)`
from the crate's tests (src/lib.rs lines 407-442).  An instance is the pair of
its const-generic tag `N` (which determines the runtime type identity) and its
string payload; `namespace_name` is the stored `"dyn0"` / `"dyn1"`, and
`dyn_hash` writes the payload bytes followed by `0xff`. -/
def testDyn : DynVTable (Nat × String) where
  type_id := fun d => d.1
  namespace_name := fun d => if d.1 = 0 then "dyn0" else "dyn1"
  symbol_name := fun d => d.2
  dyn_clone := fun d => d
  dyn_eq := fun d1 d2 => d1.2 == d2.2
  dyn_cmp := fun d1 d2 => compare d1.2 d2.2
  dyn_hash := fun d s => s ++ d.2.toList.map Char.toNat ++ [255]

/-- A small concrete dynamic namespace over `Fin 2` whose instances all share
one type identity; `dyn_eq` is propositional equality, `dyn_cmp` compares the
underlying values, `dyn_clone` is the identity and `dyn_hash` appends the
underlying value.  It satisfies every capability contract and is used to
instantiate contract hypotheses on concrete inputs. -/
def finV : DynVTable (Fin 2) where
  type_id := fun _ => 7
  namespace_name := fun _ => "fin"
  symbol_name := fun d => if d.val = 0 then "zero" else "one"
  dyn_clone := fun d => d
  dyn_eq := fun d1 d2 => decide (d1 = d2)
  dyn_cmp := fun d1 d2 => compare d1.val d2.val
  dyn_hash := fun d s => s ++ [d.val]

/-- Bridge between the source's guard shape `if t1 = t2 then o else compare t1 t2`
and the spec's shape `match compare t1 t2 with .eq => o | o2 => o2`. -/
theorem if_eq_compare_match (t1 t2 : Nat) (o : Ordering) :
    (if t1 = t2 then o else compare t1 t2)
      = (match compare t1 t2 with | .eq => o | o2 => o2) := by
  by_cases h : t1 = t2
  · subst h
    simp [Nat.compare_eq_eq.2 rfl]
  · have hne : compare t1 t2 ≠ .eq := fun hc => h (Nat.compare_eq_eq.1 hc)
    cases hc : compare t1 t2 <;> simp_all

/-- C1: `Symbol::eq` follows exactly the spec's three-step algorithm —
differing variants are unequal; two Statics are equal iff namespace type
identities and ids both match (namespace content is never consulted, as
`Symbol.eqSpec` mentions only `type_id` and the id); two Dynamics are equal
iff instance type identities match and `dyn_eq` returns true. -/
theorem c1_eq_follows_spec_algorithm (δ : Type) (V : DynVTable δ) (a b : Symbol δ) :
    Symbol.eq V a b = Symbol.eqSpec V a b := by
  cases a with
  | Static ns1 id1 =>
      cases b with
      | Static ns2 id2 =>
          by_cases h1 : id1 = id2 <;> by_cases h2 : ns1.type_id = ns2.type_id <;>
            simp [Symbol.eq, Symbol.eqSpec, h1, h2]
      | Dynamic d2 => rfl
  | Dynamic d1 =>
      cases b with
      | Static ns2 id2 => rfl
      | Dynamic d2 =>
          by_cases h : V.type_id d1 = V.type_id d2 <;>
            cases he : V.dyn_eq d1 d2 <;>
              simp [Symbol.eq, Symbol.eqSpec, h, he]

/-- C4: `Symbol::cmp` is the lexicographic order the spec describes — Static
orders strictly before Dynamic; two Statics compare namespace type identity
first and ids only on identity ties; two Dynamics compare instance type
identity first and delegate to `dyn_cmp` only on identity ties. -/
theorem c4_cmp_is_lexicographic (δ : Type) (V : DynVTable δ) (a b : Symbol δ) :
    Symbol.cmp V a b = Symbol.cmpSpec V a b := by
  cases a <;> cases b <;> simp [Symbol.cmp, Symbol.cmpSpec, if_eq_compare_match]

/-- C2: type-identity discrimination within a variant — two Static symbols
whose namespaces have different type identities are unequal even with
identical ids, and two Dynamic symbols whose instances have different type
identities are unequal regardless of their payloads or displayed names. -/
theorem c2_type_identity_discrimination (δ : Type) (V : DynVTable δ)
    (ns1 ns2 : StaticNS) (id1 id2 : Nat) (d1 d2 : δ)
    (hs : ns1.type_id ≠ ns2.type_id) (hd : V.type_id d1 ≠ V.type_id d2) :
    Symbol.eq V (.Static ns1 id1) (.Static ns2 id2) = false ∧
    Symbol.eq V (.Dynamic d1) (.Dynamic d2) = false := by
  constructor <;> simp [Symbol.eq, hs, hd]

/-- Witness for C2: namespace "B" (id 0) versus namespace "A" (id 0) are
unequal despite identical ids, and two `TestDynamic` instances of different
tags both wrapping "foo" are unequal. -/
theorem c2_type_identity_discrimination_witness :
    STATIC_NS_CLASS_B.type_id ≠ STATIC_NS_CLASS_A.type_id ∧
    testDyn.type_id (0, "foo") ≠ testDyn.type_id (1, "foo") ∧
    Symbol.eq testDyn (.Static STATIC_NS_CLASS_B 0) (.Static STATIC_NS_CLASS_A 0) = false ∧
    Symbol.eq testDyn (.Dynamic (0, "foo")) (.Dynamic (1, "foo")) = false := by
  have h := c2_type_identity_discrimination (Nat × String) testDyn
    STATIC_NS_CLASS_B STATIC_NS_CLASS_A 0 0 (0, "foo") (1, "foo")
    (by decide) (by decide)
  exact ⟨by decide, by decide, h.1, h.2⟩

/-- C8: downcast semantics — `downcast_static` returns `some (ns, id)` exactly
when the symbol is `Static ns id` and the namespace's type identity is the
target's, returning the stored id unchanged, and `none` for every Dynamic
symbol or mismatch; `downcast_dyn` returns `some d` exactly when the symbol is
`Dynamic d` with matching instance type identity, and `none` for every Static
symbol or mismatch.  Both are total functions and never fault. -/
theorem c8_downcast_semantics (δ : Type) (V : DynVTable δ) (t : TypeId)
    (s : Symbol δ) (p : StaticNS × Nat) (d : δ) :
    (Symbol.downcast_static t s = some p ↔
      (s = .Static p.1 p.2 ∧ p.1.type_id = t)) ∧
    (Symbol.downcast_dyn V t s = some d ↔
      (s = .Dynamic d ∧ V.type_id d = t)) := by
  obtain ⟨pns, pid⟩ := p
  constructor
  · cases s with
    | Static ns id =>
        by_cases h : ns.type_id = t <;>
          simp [Symbol.downcast_static, h] <;> aesop
    | Dynamic d0 => simp [Symbol.downcast_static]
  · cases s with
    | Static ns id => simp [Symbol.downcast_dyn]
    | Dynamic d0 =>
        by_cases h : V.type_id d0 = t <;>
          simp [Symbol.downcast_dyn, h] <;> aesop

/-- C9: Debug formatting produces exactly `"<namespace-name>::<symbol-name>"`
for both variants, sourced from the active variant's capability calls; in
particular the test fixtures format bit-exactly as `"A::0"`, `"A::1"`,
`"B::0"`, `"dyn0::foo"` and `"dyn1::bar"`. -/
theorem c9_debug_format (δ : Type) (V : DynVTable δ) (ns : StaticNS)
    (id : Nat) (d : δ) :
    Symbol.fmt V (.Static ns id) = ns.namespace_name ++ "::" ++ ns.symbol_name id ∧
    Symbol.fmt V (.Dynamic d) = V.namespace_name d ++ "::" ++ V.symbol_name d ∧
    Symbol.fmt testDyn (.Static STATIC_NS_CLASS_A 0) = "A::0" ∧
    Symbol.fmt testDyn (.Static STATIC_NS_CLASS_A 1) = "A::1" ∧
    Symbol.fmt testDyn (.Static STATIC_NS_CLASS_B 0) = "B::0" ∧
    Symbol.fmt testDyn (.Dynamic (0, "foo")) = "dyn0::foo" ∧
    Symbol.fmt testDyn (.Dynamic (1, "bar")) = "dyn1::bar" :=
  ⟨rfl, rfl, rfl, rfl, rfl, rfl, rfl⟩

/-- C3: same-type precondition guarantee — in every execution of `Symbol::eq`
and `Symbol::cmp`, the capability calls `dyn_eq` / `dyn_cmp` are made only on
pairs of Dynamic instances already verified to share the same type identity.
The instrumented `eqTraced` / `cmpTraced` compute the same results as
`Symbol.eq` / `Symbol.cmp` while recording exactly the pairs passed to the
capability, and every recorded pair has matching type identities. -/
theorem c3_same_type_precondition (δ : Type) (V : DynVTable δ)
    (a b : Symbol δ) (p : δ × δ)
    (hp : p ∈ (Symbol.eqTraced V a b).2 ++ (Symbol.cmpTraced V a b).2) :
    V.type_id p.1 = V.type_id p.2 ∧
    (Symbol.eqTraced V a b).1 = Symbol.eq V a b ∧
    (Symbol.cmpTraced V a b).1 = Symbol.cmp V a b := by
  refine ⟨?_, ?_, ?_⟩
  · rcases List.mem_append.1 hp with h | h
    · cases a with
      | Static ns1 id1 => cases b <;> simp [Symbol.eqTraced] at h
      | Dynamic d1 =>
          cases b with
          | Static ns2 id2 => simp [Symbol.eqTraced] at h
          | Dynamic d2 =>
              cases hb : (V.type_id d1 == V.type_id d2) <;>
                simp [Symbol.eqTraced, hb] at h
              subst h
              exact beq_iff_eq.1 hb
    · cases a with
      | Static ns1 id1 => cases b <;> simp [Symbol.cmpTraced] at h
      | Dynamic d1 =>
          cases b with
          | Static ns2 id2 => simp [Symbol.cmpTraced] at h
          | Dynamic d2 =>
              by_cases hb : V.type_id d1 = V.type_id d2 <;>
                simp [Symbol.cmpTraced, hb] at h
              subst h
              exact hb
  · cases a <;> cases b <;> try rfl
    case Dynamic.Dynamic d1 d2 =>
      cases hb : (V.type_id d1 == V.type_id d2) <;>
        simp [Symbol.eq, Symbol.eqTraced, hb]
  · cases a <;> cases b <;> try rfl
    case Dynamic.Dynamic d1 d2 =>
      by_cases hb : V.type_id d1 = V.type_id d2 <;>
        simp [Symbol.cmp, Symbol.cmpTraced, hb]

/-- Witness for C3: for two same-identity `finV` instances, the traced
equality and ordering each invoke the capability exactly on that pair, the
pair's identities match, and the traced results agree with `eq` / `cmp`. -/
theorem c3_same_type_precondition_witness :
    ((0, 1) : Fin 2 × Fin 2) ∈
      (Symbol.eqTraced finV (.Dynamic 0) (.Dynamic 1)).2 ++
      (Symbol.cmpTraced finV (.Dynamic 0) (.Dynamic 1)).2 ∧
    (finV.type_id 0 = finV.type_id 1 ∧
     (Symbol.eqTraced finV (.Dynamic 0) (.Dynamic 1)).1 =
       Symbol.eq finV (.Dynamic 0) (.Dynamic 1) ∧
     (Symbol.cmpTraced finV (.Dynamic 0) (.Dynamic 1)).1 =
       Symbol.cmp finV (.Dynamic 0) (.Dynamic 1)) :=
  ⟨by decide,
   c3_same_type_precondition (Fin 2) finV (.Dynamic 0) (.Dynamic 1) (0, 1) (by decide)⟩

/-- C7: `Symbol::eq` is an equivalence relation whenever the dynamic
capability's `dyn_eq` is reflexive, and symmetric and transitive on same-type
pairs: `eq a a` holds, `eq a b = eq b a`, and `eq` is transitive. -/
theorem c7_eq_equivalence (δ : Type) (V : DynVTable δ)
    (hrefl : ∀ d : δ, V.dyn_eq d d = true)
    (hsymm : ∀ d1 d2 : δ, V.type_id d1 = V.type_id d2 →
      V.dyn_eq d1 d2 = V.dyn_eq d2 d1)
    (htrans : ∀ d1 d2 d3 : δ, V.type_id d1 = V.type_id d2 →
      V.type_id d2 = V.type_id d3 →
      V.dyn_eq d1 d2 = true → V.dyn_eq d2 d3 = true → V.dyn_eq d1 d3 = true)
    (a b c : Symbol δ) :
    Symbol.eq V a a = true ∧
    Symbol.eq V a b = Symbol.eq V b a ∧
    (Symbol.eq V a b = true → Symbol.eq V b c = true → Symbol.eq V a c = true) := by
  refine ⟨?_, ?_, ?_⟩
  · cases a <;> simp [Symbol.eq, hrefl]
  · cases a with
    | Static ns1 id1 =>
        cases b with
        | Static ns2 id2 =>
            simp only [Symbol.eq]
            rw [Bool.beq_comm (a := id1) (b := id2),
              Bool.beq_comm (a := ns1.type_id) (b := ns2.type_id)]
        | Dynamic d2 => rfl
    | Dynamic d1 =>
        cases b with
        | Static ns2 id2 => rfl
        | Dynamic d2 =>
            by_cases h : V.type_id d1 = V.type_id d2
            · simp [Symbol.eq, h, hsymm d1 d2 h]
            · have h' : V.type_id d2 ≠ V.type_id d1 := fun he => h he.symm
              simp only [Symbol.eq]
              rw [beq_false_of_ne h, beq_false_of_ne h',
                Bool.false_and, Bool.false_and]
  · cases a with
    | Static ns1 id1 =>
        cases b with
        | Static ns2 id2 =>
            cases c with
            | Static ns3 id3 =>
                simp only [Symbol.eq, Bool.and_eq_true, beq_iff_eq]
                rintro ⟨h1, h2⟩ ⟨h3, h4⟩
                exact ⟨h1.trans h3, h2.trans h4⟩
            | Dynamic d3 => simp [Symbol.eq]
        | Dynamic d2 => simp [Symbol.eq]
    | Dynamic d1 =>
        cases b with
        | Static ns2 id2 => simp [Symbol.eq]
        | Dynamic d2 =>
            cases c with
            | Static ns3 id3 => simp [Symbol.eq]
            | Dynamic d3 =>
                simp only [Symbol.eq, Bool.and_eq_true, beq_iff_eq]
                rintro ⟨ht12, he12⟩ ⟨ht23, he23⟩
                exact ⟨ht12.trans ht23, htrans d1 d2 d3 ht12 ht23 he12 he23⟩

/-- Witness for C7: the `finV` capability is a lawful equivalence on its own
type, and the three properties hold at concrete dynamic symbols. -/
theorem c7_eq_equivalence_witness :
    (∀ d : Fin 2, finV.dyn_eq d d = true) ∧
    (Symbol.eq finV (.Dynamic 0) (.Dynamic 0) = true ∧
     Symbol.eq finV (.Dynamic 0) (.Dynamic 1) = Symbol.eq finV (.Dynamic 1) (.Dynamic 0) ∧
     (Symbol.eq finV (.Dynamic 0) (.Dynamic 1) = true →
      Symbol.eq finV (.Dynamic 1) (.Dynamic 0) = true →
      Symbol.eq finV (.Dynamic 0) (.Dynamic 0) = true)) :=
  ⟨by decide,
   c7_eq_equivalence (Fin 2) finV (by decide) (by decide) (by decide)
     (.Dynamic 0) (.Dynamic 1) (.Dynamic 0)⟩

/-- C10: clone fidelity — `eq x (clone x)` holds for every symbol whenever the
dynamic capability's `dyn_clone` keeps the type identity and returns an
instance `dyn_eq` to the original; for the Static variant `clone` copies the
namespace reference and id unchanged (no capability call is involved). -/
theorem c10_clone_fidelity (δ : Type) (V : DynVTable δ)
    (htid : ∀ d : δ, V.type_id (V.dyn_clone d) = V.type_id d)
    (heq : ∀ d : δ, V.dyn_eq d (V.dyn_clone d) = true)
    (x : Symbol δ) (ns : StaticNS) (id : Nat) :
    Symbol.eq V x (Symbol.clone V x) = true ∧
    Symbol.clone V (.Static ns id) = .Static ns id := by
  refine ⟨?_, rfl⟩
  cases x with
  | Static ns0 id0 => simp [Symbol.clone, Symbol.eq]
  | Dynamic d => simp [Symbol.clone, Symbol.eq, htid, heq]

/-- Witness for C10: `finV.dyn_clone` is the identity, which keeps the type
identity and is `dyn_eq`-related to the original, so every concrete symbol is
equal to its clone, and Static cloning is the identity on concrete data. -/
theorem c10_clone_fidelity_witness :
    (∀ d : Fin 2, finV.type_id (finV.dyn_clone d) = finV.type_id d) ∧
    (∀ d : Fin 2, finV.dyn_eq d (finV.dyn_clone d) = true) ∧
    (Symbol.eq finV (.Dynamic 1) (Symbol.clone finV (.Dynamic 1)) = true ∧
     Symbol.clone finV (.Static STATIC_NS_CLASS_A 0) = .Static STATIC_NS_CLASS_A 0) :=
  ⟨by decide, by decide,
   c10_clone_fidelity (Fin 2) finV (by decide) (by decide)
     (.Dynamic 1) STATIC_NS_CLASS_A 0⟩

/-- C6: hash/equality consistency — whenever the dynamic capability keeps
`dyn_hash` consistent with `dyn_eq` on same-type pairs, equal symbols hash
identically from any common hasher state; moreover hashing a Static symbol
feeds the namespace type identity and then the raw id into the hasher, and
hashing a Dynamic symbol feeds the instance type identity and then the
capability's `dyn_hash` contribution. -/
theorem c6_hash_eq_consistency (δ : Type) (V : DynVTable δ)
    (hh : ∀ d1 d2 : δ, ∀ s : List Nat, V.type_id d1 = V.type_id d2 →
      V.dyn_eq d1 d2 = true → V.dyn_hash d1 s = V.dyn_hash d2 s)
    (a b : Symbol δ) (s : List Nat) (ns : StaticNS) (id : Nat) (d : δ) :
    (Symbol.eq V a b = true → Symbol.hash V a s = Symbol.hash V b s) ∧
    Symbol.hash V (.Static ns id) s = (s ++ [ns.type_id]) ++ [id] ∧
    Symbol.hash V (.Dynamic d) s = V.dyn_hash d (s ++ [V.type_id d]) := by
  refine ⟨?_, rfl, rfl⟩
  cases a with
  | Static ns1 id1 =>
      cases b with
      | Static ns2 id2 =>
          simp only [Symbol.eq, Symbol.hash, Bool.and_eq_true, beq_iff_eq]
          rintro ⟨h1, h2⟩
          rw [h1, h2]
      | Dynamic d2 => simp [Symbol.eq]
  | Dynamic d1 =>
      cases b with
      | Static ns2 id2 => simp [Symbol.eq]
      | Dynamic d2 =>
          simp only [Symbol.eq, Symbol.hash, Bool.and_eq_true, beq_iff_eq]
          rintro ⟨ht, he⟩
          rw [ht]
          exact hh d1 d2 _ ht he

/-- Witness for C6: the `finV` capability's `dyn_hash` is consistent with its
`dyn_eq`, and two equal concrete symbols hash identically from the empty
hasher state; the two structural equations hold on concrete fixtures. -/
theorem c6_hash_eq_consistency_witness :
    (∀ d1 d2 : Fin 2, ∀ s : List Nat, finV.type_id d1 = finV.type_id d2 →
      finV.dyn_eq d1 d2 = true → finV.dyn_hash d1 s = finV.dyn_hash d2 s) ∧
    ((Symbol.eq finV (.Dynamic 1) (.Dynamic 1) = true →
      Symbol.hash finV (.Dynamic 1) [] = Symbol.hash finV (.Dynamic 1) []) ∧
     Symbol.hash finV (.Static STATIC_NS_CLASS_A 0) [] =
       ([] ++ [STATIC_NS_CLASS_A.type_id]) ++ [0] ∧
     Symbol.hash finV (.Dynamic 1) [] = finV.dyn_hash 1 ([] ++ [finV.type_id 1])) :=
  have hh : ∀ d1 d2 : Fin 2, ∀ s : List Nat, finV.type_id d1 = finV.type_id d2 →
      finV.dyn_eq d1 d2 = true → finV.dyn_hash d1 s = finV.dyn_hash d2 s :=
    fun d1 d2 s _ he => by rw [of_decide_eq_true he]
  ⟨hh, c6_hash_eq_consistency (Fin 2) finV hh
    (.Dynamic 1) (.Dynamic 1) [] STATIC_NS_CLASS_A 0 1⟩

/-- Transitivity of the guard shape used by both `Symbol::cmp` arms: if the
inner comparisons are transitive on identity ties, strict-less results chain
through `if t1 = t2 then o else compare t1 t2`. -/
theorem ifc_lt_trans {t1 t2 t3 : Nat} {o12 o23 o13 : Ordering}
    (ho : t1 = t2 → t2 = t3 → o12 = .lt → o23 = .lt → o13 = .lt)
    (h12 : (if t1 = t2 then o12 else compare t1 t2) = .lt)
    (h23 : (if t2 = t3 then o23 else compare t2 t3) = .lt) :
    (if t1 = t3 then o13 else compare t1 t3) = .lt := by
  by_cases e12 : t1 = t2
  · by_cases e23 : t2 = t3
    · have e13 : t1 = t3 := e12.trans e23
      rw [if_pos e12] at h12
      rw [if_pos e23] at h23
      rw [if_pos e13]
      exact ho e12 e23 h12 h23
    · rw [if_neg e23] at h23
      have hlt : t2 < t3 := Nat.compare_eq_lt.1 h23
      have e13 : t1 ≠ t3 := by omega
      rw [if_neg e13, Nat.compare_eq_lt]
      omega
  · rw [if_neg e12] at h12
    have hlt : t1 < t2 := Nat.compare_eq_lt.1 h12
    by_cases e23 : t2 = t3
    · have e13 : t1 ≠ t3 := by omega
      rw [if_neg e13, Nat.compare_eq_lt]
      omega
    · rw [if_neg e23] at h23
      have hlt2 : t2 < t3 := Nat.compare_eq_lt.1 h23
      have e13 : t1 ≠ t3 := by omega
      rw [if_neg e13, Nat.compare_eq_lt]
      omega

/-- C5: order/equality consistency and totality — whenever the dynamic
capability's `dyn_cmp` is a total order consistent with `dyn_eq` on same-type
pairs, `Symbol::cmp` returns `Equal` exactly when `Symbol::eq` holds, `cmp` is
a strict total order (reflexively `Equal`, antisymmetric under `swap`, and
transitive on strict results), and `partial_cmp` always returns
`some (cmp a b)`, never `none`. -/
theorem c5_order_eq_consistency_totality (δ : Type) (V : DynVTable δ)
    (hcrefl : ∀ d : δ, V.dyn_cmp d d = .eq)
    (hcswap : ∀ d1 d2 : δ, V.type_id d1 = V.type_id d2 →
      V.dyn_cmp d2 d1 = (V.dyn_cmp d1 d2).swap)
    (hctrans : ∀ d1 d2 d3 : δ, V.type_id d1 = V.type_id d2 →
      V.type_id d2 = V.type_id d3 →
      V.dyn_cmp d1 d2 = .lt → V.dyn_cmp d2 d3 = .lt → V.dyn_cmp d1 d3 = .lt)
    (hconsist : ∀ d1 d2 : δ, V.type_id d1 = V.type_id d2 →
      (V.dyn_cmp d1 d2 = .eq ↔ V.dyn_eq d1 d2 = true))
    (a b c : Symbol δ) :
    (Symbol.cmp V a b = .eq ↔ Symbol.eq V a b = true) ∧
    Symbol.partial_cmp V a b = some (Symbol.cmp V a b) ∧
    Symbol.cmp V a a = .eq ∧
    Symbol.cmp V b a = (Symbol.cmp V a b).swap ∧
    (Symbol.cmp V a b = .lt → Symbol.cmp V b c = .lt → Symbol.cmp V a c = .lt) := by
  refine ⟨?_, rfl, ?_, ?_, ?_⟩
  · cases a with
    | Static ns1 id1 =>
        cases b with
        | Static ns2 id2 =>
            by_cases h : ns1.type_id = ns2.type_id <;>
              simp [Symbol.cmp, Symbol.eq, h, Nat.compare_eq_eq]
        | Dynamic d2 => simp [Symbol.cmp, Symbol.eq]
    | Dynamic d1 =>
        cases b with
        | Static ns2 id2 => simp [Symbol.cmp, Symbol.eq]
        | Dynamic d2 =>
            by_cases h : V.type_id d1 = V.type_id d2
            · simpa [Symbol.cmp, Symbol.eq, h] using hconsist d1 d2 h
            · simp [Symbol.cmp, Symbol.eq, h, Nat.compare_eq_eq]
  · cases a with
    | Static ns id => simp [Symbol.cmp, Nat.compare_eq_eq]
    | Dynamic d => simp [Symbol.cmp, hcrefl]
  · cases a with
    | Static ns1 id1 =>
        cases b with
        | Static ns2 id2 =>
            by_cases h : ns1.type_id = ns2.type_id
            · simp only [Symbol.cmp, if_pos h, if_pos h.symm]
              exact (Nat.compare_swap id1 id2).symm
            · have h' : ns2.type_id ≠ ns1.type_id := fun he => h he.symm
              simp only [Symbol.cmp, if_neg h, if_neg h']
              exact (Nat.compare_swap ns1.type_id ns2.type_id).symm
        | Dynamic d2 => rfl
    | Dynamic d1 =>
        cases b with
        | Static ns2 id2 => rfl
        | Dynamic d2 =>
            by_cases h : V.type_id d1 = V.type_id d2
            · simp only [Symbol.cmp, if_pos h, if_pos h.symm]
              exact hcswap d1 d2 h
            · have h' : V.type_id d2 ≠ V.type_id d1 := fun he => h he.symm
              simp only [Symbol.cmp, if_neg h, if_neg h']
              exact (Nat.compare_swap (V.type_id d1) (V.type_id d2)).symm
  · cases a with
    | Static ns1 id1 =>
        cases b with
        | Static ns2 id2 =>
            cases c with
            | Static ns3 id3 =>
                intro h12 h23
                simp only [Symbol.cmp] at h12 h23 ⊢
                refine ifc_lt_trans ?_ h12 h23
                intro _ _ h1 h2
                exact Nat.compare_eq_lt.2
                  (Nat.lt_trans (Nat.compare_eq_lt.1 h1) (Nat.compare_eq_lt.1 h2))
            | Dynamic d3 =>
                intro _ _
                rfl
        | Dynamic d2 =>
            cases c with
            | Static ns3 id3 =>
                intro h12 h23
                simp [Symbol.cmp] at h23
            | Dynamic d3 =>
                intro _ _
                rfl
    | Dynamic d1 =>
        cases b with
        | Static ns2 id2 =>
            intro h12 h23
            simp [Symbol.cmp] at h12
        | Dynamic d2 =>
            cases c with
            | Static ns3 id3 =>
                intro h12 h23
                simp [Symbol.cmp] at h23
            | Dynamic d3 =>
                intro h12 h23
                simp only [Symbol.cmp] at h12 h23 ⊢
                exact ifc_lt_trans (fun e12 e23 => hctrans d1 d2 d3 e12 e23) h12 h23

/-- Witness for C5: the `finV` capability (all instances share one type
identity, `dyn_cmp` compares underlying values) satisfies every total-order
and consistency hypothesis, and the five conclusions hold at concrete
symbols. -/
theorem c5_order_eq_consistency_totality_witness :
    (∀ d : Fin 2, finV.dyn_cmp d d = .eq) ∧
    ((Symbol.cmp finV (.Dynamic 0) (.Dynamic 1) = .eq ↔
      Symbol.eq finV (.Dynamic 0) (.Dynamic 1) = true) ∧
     Symbol.partial_cmp finV (.Dynamic 0) (.Dynamic 1) =
       some (Symbol.cmp finV (.Dynamic 0) (.Dynamic 1)) ∧
     Symbol.cmp finV (.Dynamic 0) (.Dynamic 0) = .eq ∧
     Symbol.cmp finV (.Dynamic 1) (.Dynamic 0) =
       (Symbol.cmp finV (.Dynamic 0) (.Dynamic 1)).swap ∧
     (Symbol.cmp finV (.Dynamic 0) (.Dynamic 1) = .lt →
      Symbol.cmp finV (.Dynamic 1) (.Static STATIC_NS_CLASS_A 0) = .lt →
      Symbol.cmp finV (.Dynamic 0) (.Static STATIC_NS_CLASS_A 0) = .lt)) :=
  ⟨by decide,
   c5_order_eq_consistency_totality (Fin 2) finV
     (by decide) (by decide) (by decide) (by decide)
     (.Dynamic 0) (.Dynamic 1) (.Static STATIC_NS_CLASS_A 0)⟩

end DynSymbol
